import Mathlib

/-!
Verification of the lookup-argument degree algebra of `src/plonk/lookup.rs`
and of the example-circuit scenarios shipped with the repository.

The `Argument` structure, its constructor `Argument.new` and the
`required_degree` computation are translated directly from
`src/plonk/lookup.rs`.  The `Expression` tree (which lives in
`plonk/circuit.rs`, a file not shipped here) and the witness checker are
modelled from the specification, as noted on each definition.
-/

namespace Halo2

/-- Modelled from the spec: the expression tree of `plonk/circuit.rs`
(the file is not part of the shipped sources).  A recursive variant over
constants, fixed/advice/instance column queries at a signed rotation,
selector queries, negation, sum, product, and scaling by a constant. -/
inductive Expression (F : Type) where
  | Constant : F → Expression F
  | Fixed : Nat → Int → Expression F
  | Advice : Nat → Int → Expression F
  | Instance : Nat → Int → Expression F
  | Selector : Nat → Expression F
  | Negated : Expression F → Expression F
  | Sum : Expression F → Expression F → Expression F
  | Product : Expression F → Expression F → Expression F
  | Scaled : Expression F → F → Expression F
deriving DecidableEq

/-- Modelled from the spec: the structural degree of an expression
(`plonk/circuit.rs` is not part of the shipped sources).  A constant has
degree 0, every column or selector query degree 1; sum takes the maximum
of the operand degrees, product their total, and negation and scaling by
a constant leave the degree unchanged. -/
def Expression.degree {F : Type} : Expression F → Nat
  | .Constant _ => 0
  | .Fixed _ _ => 1
  | .Advice _ _ => 1
  | .Instance _ _ => 1
  | .Selector _ => 1
  | .Negated e => e.degree
  | .Sum e₁ e₂ => max e₁.degree e₂.degree
  | .Product e₁ e₂ => e₁.degree + e₂.degree
  | .Scaled e _ => e.degree

/-- Modelled from the spec: evaluation of an expression against one row of
a witness, a leaf-to-root fold.  The three query environments give the
value of a fixed/advice/instance column at a rotation, and `sl` gives the
value of a selector on the row. -/
def Expression.eval {F : Type} [CommRing F] (fx ad ins : Nat → Int → F)
    (sl : Nat → F) : Expression F → F
  | .Constant c => c
  | .Fixed c r => fx c r
  | .Advice c r => ad c r
  | .Instance c r => ins c r
  | .Selector s => sl s
  | .Negated e => -(e.eval fx ad ins sl)
  | .Sum e₁ e₂ => e₁.eval fx ad ins sl + e₂.eval fx ad ins sl
  | .Product e₁ e₂ => e₁.eval fx ad ins sl * e₂.eval fx ad ins sl
  | .Scaled e c => e.eval fx ad ins sl * c

/-- The lookup argument of `src/plonk/lookup.rs`: an ordered list of input
expressions paired positionally with an ordered list of table
expressions. -/
structure Argument (F : Type) where
  input_expressions : List (Expression F)
  table_expressions : List (Expression F)
deriving DecidableEq

/-- Translation of `Argument::new` from `src/plonk/lookup.rs`: the
`(input, table)` pairs of `table_map` are unzipped into the two fields. -/
def Argument.new {F : Type} (table_map : List (Expression F × Expression F)) :
    Argument F :=
  let p := table_map.unzip
  Argument.mk p.1 p.2

/-- Translation of `Argument::required_degree` from `src/plonk/lookup.rs`.
The source first asserts that the two expression lists have equal length
(modelled here by returning `none` when the assert would fire), then folds
`max` over the degrees of each list starting from 1, and returns
`max 4 (2 + input_degree + table_degree)`. -/
def Argument.required_degree {F : Type} (a : Argument F) : Option Nat :=
  if a.input_expressions.length = a.table_expressions.length then
    some (max 4
      (2 + a.input_expressions.foldl (fun d e => max d e.degree) 1
         + a.table_expressions.foldl (fun d e => max d e.degree) 1))
  else
    none

/-- Maximum of a list of naturals, 0 on the empty list. -/
def listMax (l : List Nat) : Nat := l.foldr max 0

lemma listMax_nil : listMax [] = 0 := rfl

lemma listMax_cons (y : Nat) (l : List Nat) :
    listMax (y :: l) = max y (listMax l) := rfl

lemma foldl_max_eq {α : Type} (f : α → Nat) (l : List α) (i : Nat) :
    l.foldl (fun d e => max d (f e)) i = max i (listMax (l.map f)) := by
  induction l generalizing i with
  | nil => simp [listMax_nil]
  | cons x xs ih =>
      simp only [List.foldl_cons, List.map_cons, listMax_cons]
      rw [ih, Nat.max_assoc]

lemma listMax_le (l : List Nat) (c : Nat) (h : ∀ x ∈ l, x ≤ c) :
    listMax l ≤ c := by
  induction l with
  | nil => simp [listMax_nil]
  | cons y ys ih =>
      rw [listMax_cons]
      exact max_le (h y (List.mem_cons_self y ys))
        (ih fun x hx => h x (List.mem_cons_of_mem y hx))

lemma listMax_set_le {α : Type} (f : α → Nat) (l : List α) (i : Nat)
    (e e' : α) (hget : l[i]? = some e) (hle : f e ≤ f e') :
    listMax (l.map f) ≤ listMax ((l.set i e').map f) := by
  induction l generalizing i with
  | nil => simp at hget
  | cons x xs ih =>
      cases i with
      | zero =>
          simp only [List.getElem?_cons_zero, Option.some.injEq] at hget
          subst hget
          simp only [List.set, List.map_cons, listMax_cons]
          exact max_le_max hle le_rfl
      | succ n =>
          simp only [List.getElem?_cons_succ] at hget
          simp only [List.set, List.map_cons, listMax_cons]
          exact max_le_max le_rfl (ih n hget)

lemma unzip_fst {α β : Type} (l : List (α × β)) :
    l.unzip.1 = l.map Prod.fst := by
  induction l with
  | nil => rfl
  | cons x xs ih => simp [List.unzip_cons, ih]

lemma unzip_snd {α β : Type} (l : List (α × β)) :
    l.unzip.2 = l.map Prod.snd := by
  induction l with
  | nil => rfl
  | cons x xs ih => simp [List.unzip_cons, ih]

/-- Closed form of `required_degree` when the length assert passes. -/
lemma required_degree_spec {F : Type} (a : Argument F)
    (h : a.input_expressions.length = a.table_expressions.length) :
    a.required_degree =
      some (max 4
        (2 + max 1 (listMax (a.input_expressions.map Expression.degree))
           + max 1 (listMax (a.table_expressions.map Expression.degree)))) := by
  unfold Argument.required_degree
  rw [if_pos h, foldl_max_eq, foldl_max_eq]

/-- C1: for every lookup argument accepted by the length assert,
`required_degree` returns exactly `max 4 (2 + input_degree + table_degree)`,
where `input_degree` is the maximum of 1 and the degrees of all input
expressions and `table_degree` likewise for the table expressions. -/
theorem C1_required_degree_formula {F : Type} (a : Argument F)
    (h : a.input_expressions.length = a.table_expressions.length) :
    a.required_degree =
      some (max 4
        (2 + max 1 (listMax (a.input_expressions.map Expression.degree))
           + max 1 (listMax (a.table_expressions.map Expression.degree)))) :=
  required_degree_spec a h

/-- Witness for C1 at the one-pair argument with a constant input and an
advice-query table expression. -/
theorem C1_required_degree_formula_witness :
    (Argument.mk [Expression.Constant (0 : Int)]
        [Expression.Advice 0 0]).input_expressions.length
      = (Argument.mk [Expression.Constant (0 : Int)]
        [Expression.Advice 0 0]).table_expressions.length ∧
    (Argument.mk [Expression.Constant (0 : Int)]
        [Expression.Advice 0 0]).required_degree
      = some (max 4
        (2 + max 1 (listMax ([Expression.Constant (0 : Int)].map Expression.degree))
           + max 1 (listMax ([Expression.Advice (F := Int) 0 0].map Expression.degree)))) :=
  ⟨rfl, C1_required_degree_formula _ rfl⟩

/-- C2 counterexample: nothing at construction level confines the two
expression lists to equal lengths — a lookup argument whose field lengths
differ exists, so the length mismatch is not rejected at construction. -/
theorem C2_no_constructor_assert :
    ¬ (∀ a : Argument Int,
        a.input_expressions.length = a.table_expressions.length) := by
  intro h
  have h1 := h (Argument.mk [Expression.Constant 0] [])
  simp at h1

/-- C2 (amended): `Argument::new` takes a list of `(input, table)` pairs, so
it can never be handed mismatched lengths — it always succeeds and produces
fields whose lengths both equal the length of the table map (hence no
truncation); the length-equality assertion sits instead at the top of
`required_degree`, which fails on any argument whose field lengths differ. -/
theorem C2_length_check_in_required_degree {F : Type} :
    (∀ tm : List (Expression F × Expression F),
      (Argument.new tm).input_expressions.length = tm.length ∧
      (Argument.new tm).table_expressions.length = tm.length) ∧
    (∀ a : Argument F,
      a.input_expressions.length ≠ a.table_expressions.length →
      a.required_degree = none) := by
  constructor
  · intro tm
    constructor <;> simp [Argument.new, unzip_fst, unzip_snd]
  · intro a hne
    unfold Argument.required_degree
    rw [if_neg hne]

/-- Witness for C2 (amended): on a directly built mismatched argument,
`required_degree` fires its assert. -/
theorem C2_length_check_in_required_degree_witness :
    (Argument.mk [Expression.Constant (0 : Int)] []).required_degree = none :=
  C2_length_check_in_required_degree.2
    (Argument.mk [Expression.Constant (0 : Int)] []) (by decide)

/-- C3: `required_degree` is monotonic — replacing any single input or table
expression by one of strictly larger degree, all other expressions
unchanged, never decreases the returned degree. -/
theorem C3_required_degree_monotone {F : Type} (a a' : Argument F) (i : Nat)
    (e e' : Expression F)
    (h : a.input_expressions.length = a.table_expressions.length)
    (hrep :
      (a.input_expressions[i]? = some e ∧ e.degree < e'.degree ∧
        a' = Argument.mk (a.input_expressions.set i e') a.table_expressions) ∨
      (a.table_expressions[i]? = some e ∧ e.degree < e'.degree ∧
        a' = Argument.mk a.input_expressions (a.table_expressions.set i e'))) :
    ∃ d d', a.required_degree = some d ∧ a'.required_degree = some d' ∧
      d ≤ d' := by
  rcases hrep with ⟨hget, hlt, ha'⟩ | ⟨hget, hlt, ha'⟩
  · subst ha'
    have h' : (a.input_expressions.set i e').length
        = a.table_expressions.length := by
      rw [List.length_set]; exact h
    refine ⟨_, _, required_degree_spec a h, required_degree_spec _ h', ?_⟩
    have hX := listMax_set_le Expression.degree a.input_expressions i e e'
      hget (le_of_lt hlt)
    have h1 := le_max_left 1 (listMax (a.input_expressions.map Expression.degree))
    dsimp only
    omega
  · subst ha'
    have h' : a.input_expressions.length
        = (a.table_expressions.set i e').length := by
      rw [List.length_set]; exact h
    refine ⟨_, _, required_degree_spec a h, required_degree_spec _ h', ?_⟩
    have hX := listMax_set_le Expression.degree a.table_expressions i e e'
      hget (le_of_lt hlt)
    have h1 := le_max_left 1 (listMax (a.table_expressions.map Expression.degree))
    dsimp only
    omega

/-- Witness for C3: replacing the degree-1 input query of a one-pair lookup
by a degree-2 product does not decrease the required degree. -/
theorem C3_required_degree_monotone_witness :
    ∃ d d',
      (Argument.mk [Expression.Advice (F := Int) 0 0]
        [Expression.Advice 1 0]).required_degree = some d ∧
      (Argument.mk
        [Expression.Product (Expression.Advice (F := Int) 0 0)
          (Expression.Advice 0 0)]
        [Expression.Advice 1 0]).required_degree = some d' ∧
      d ≤ d' :=
  C3_required_degree_monotone _ _ 0 (Expression.Advice 0 0)
    (Expression.Product (Expression.Advice 0 0) (Expression.Advice 0 0))
    rfl (Or.inl ⟨rfl, by decide, rfl⟩)

/-- C4: for every lookup argument accepted by the length assert and holding
at least one pair, whatever the degrees of its expressions,
`required_degree` returns at least 4. -/
theorem C4_required_degree_ge_four {F : Type} (a : Argument F)
    (h : a.input_expressions.length = a.table_expressions.length)
    ( _hne : a.input_expressions ≠ []) :
    ∃ d, a.required_degree = some d ∧ 4 ≤ d :=
  ⟨_, required_degree_spec a h, le_max_left 4 _⟩

/-- Witness for C4 at a one-pair argument of constant expressions, whose
degrees are 0. -/
theorem C4_required_degree_ge_four_witness :
    ∃ d, (Argument.mk [Expression.Constant (0 : Int)]
        [Expression.Constant 1]).required_degree = some d ∧ 4 ≤ d :=
  C4_required_degree_ge_four _ rfl (by decide)

/-- C5: every argument produced by `Argument::new` satisfies the invariant
that the two expression lists have equal length; the structure is never
mutated afterwards, so the invariant persists. -/
theorem C5_new_equal_lengths {F : Type}
    (tm : List (Expression F × Expression F)) :
    (Argument.new tm).input_expressions.length
      = (Argument.new tm).table_expressions.length := by
  simp [Argument.new, unzip_fst, unzip_snd]

/-- C6: `Argument::new` preserves the positional pairing of the table map —
entry `i` of the inputs is the first component of pair `i`, and entry `i`
of the tables its second component, in the original order. -/
theorem C6_new_preserves_pairing {F : Type}
    (tm : List (Expression F × Expression F)) (i : Nat) (hi : i < tm.length) :
    (Argument.new tm).input_expressions[i]? = some (tm.get ⟨i, hi⟩).1 ∧
    (Argument.new tm).table_expressions[i]? = some (tm.get ⟨i, hi⟩).2 := by
  constructor <;>
    simp [Argument.new, unzip_fst, unzip_snd, List.getElem?_map,
      List.getElem?_eq_getElem hi, List.get_eq_getElem]

/-- Witness for C6 at a two-pair table map and index 1. -/
theorem C6_new_preserves_pairing_witness :
    (Argument.new [(Expression.Constant (0 : Int), Expression.Constant 1),
      (Expression.Advice 0 0, Expression.Fixed 0 0)]).input_expressions[1]?
      = some (Expression.Advice 0 0) ∧
    (Argument.new [(Expression.Constant (0 : Int), Expression.Constant 1),
      (Expression.Advice 0 0, Expression.Fixed 0 0)]).table_expressions[1]?
      = some (Expression.Fixed 0 0) :=
  C6_new_preserves_pairing _ 1 (by decide)

/-- C9: the explicit floor of 4 never binds — because both folded degrees
start at 1, `required_degree` always equals
`2 + input_degree + table_degree`, and it equals exactly 4 when every
expression has degree at most 1. -/
theorem C9_floor_never_binds {F : Type} (a : Argument F)
    (h : a.input_expressions.length = a.table_expressions.length) :
    a.required_degree =
      some (2 + max 1 (listMax (a.input_expressions.map Expression.degree))
          + max 1 (listMax (a.table_expressions.map Expression.degree))) ∧
    ((∀ e ∈ a.input_expressions ++ a.table_expressions, e.degree ≤ 1) →
      a.required_degree = some 4) := by
  have hspec := required_degree_spec a h
  have h1 := le_max_left 1 (listMax (a.input_expressions.map Expression.degree))
  have h2 := le_max_left 1 (listMax (a.table_expressions.map Expression.degree))
  constructor
  · rw [hspec]
    exact congrArg some (by omega)
  · intro hall
    have hx : listMax (a.input_expressions.map Expression.degree) ≤ 1 := by
      refine listMax_le _ _ ?_
      intro x hx
      rcases List.mem_map.mp hx with ⟨e, he, rfl⟩
      exact hall e (List.mem_append_left _ he)
    have hy : listMax (a.table_expressions.map Expression.degree) ≤ 1 := by
      refine listMax_le _ _ ?_
      intro x hx
      rcases List.mem_map.mp hx with ⟨e, he, rfl⟩
      exact hall e (List.mem_append_right _ he)
    rw [hspec]
    exact congrArg some (by omega)

/-- Witness for C9 at a one-pair argument of degree-1 queries: the required
degree is exactly 4. -/
theorem C9_floor_never_binds_witness :
    (Argument.mk [Expression.Advice (F := Int) 0 0]
      [Expression.Fixed 0 0]).required_degree =
      some (2 + max 1 (listMax ([Expression.Advice (F := Int) 0 0].map
          Expression.degree))
        + max 1 (listMax ([Expression.Fixed (F := Int) 0 0].map
          Expression.degree))) ∧
    (Argument.mk [Expression.Advice (F := Int) 0 0]
      [Expression.Fixed 0 0]).required_degree = some 4 :=
  ⟨(C9_floor_never_binds _ rfl).1, (C9_floor_never_binds _ rfl).2 (by decide)⟩

/-- C10: `Argument::new` on an empty table map yields empty expression
lists, and `required_degree` on that empty argument does not fail and
returns exactly 4. -/
theorem C10_empty_table_map :
    (Argument.new ([] : List (Expression Int × Expression Int))).input_expressions
      = [] ∧
    (Argument.new ([] : List (Expression Int × Expression Int))).table_expressions
      = [] ∧
    (Argument.new
      ([] : List (Expression Int × Expression Int))).required_degree = some 4 := by
  refine ⟨rfl, rfl, ?_⟩
  decide

/-! Scenario theorems about the example circuits.  The examples run over the
base field of the Pallas curve, embedded here as `ZMod pallas_p`.  The
checker that the examples call (`MockProver`) is not among the shipped
sources, so its gate and lookup rules are modelled from the spec. -/

/-- Order of the base field of the Pallas curve, over which the example
circuits instantiate their field parameter. -/
def pallas_p : Nat :=
  0x40000000000000000000000000000000224698fc094cf91b992d30ed00000001

/-- The field of the example circuits. -/
abbrev Fp : Type := ZMod pallas_p

/-- Modelled from the spec: the checker's lookup rule (the checker itself is
not among the shipped sources) — a lookup is satisfied when every row-wise
tuple of input-expression values equals the tuple of table values on some
row of the table. -/
def lookup_satisfied {F : Type} [DecidableEq F]
    (input_rows table_rows : List (List F)) : Bool :=
  input_rows.all fun t => table_rows.any fun r => decide (r = t)

/-- Modelled from the spec: the checker's gate rule (the checker itself is
not among the shipped sources) — a gate is satisfied at a row when every
one of its polynomials evaluates to zero there. -/
def gate_satisfied {F : Type} [CommRing F] [DecidableEq F]
    (polys : List (Expression F)) (fx ad ins : Nat → Int → F)
    (sl : Nat → F) : Bool :=
  polys.all fun p => decide (p.eval fx ad ins sl = 0)

/-- The lookup input expression registered by `RangeCheckChip::configure` in
`examples/lookup_range_check.rs`: `sel * x + (1 - sel) * 3`, with `x` the
advice column and `sel` the complex selector. -/
def range_check_input : Expression Fp :=
  Expression.Sum
    (Expression.Product (Expression.Selector 0) (Expression.Advice 0 0))
    (Expression.Scaled
      (Expression.Sum (Expression.Constant 1)
        (Expression.Negated (Expression.Selector 0)))
      3)

/-- The table rows loaded by `RangeCheckChip::assign_table`: the single
table column holds 3, 4, 5, 6, 7. -/
def range_table : List (List Fp) := [[3], [4], [5], [6], [7]]

/-- Value of the lookup input expression on the active row, where the
selector reads 1 and the advice cell holds `x`. -/
def range_input_at (x : Fp) : Fp :=
  range_check_input.eval (fun _ _ => 0) (fun _ _ => x) (fun _ _ => 0)
    (fun _ => 1)

/-- C7: against the 5-row table 3,4,5,6,7 of the range-check example, an
active row whose input expression evaluates to 4 satisfies the lookup,
while values 0 and 42 both violate it. -/
theorem C7_range_check_scenario :
    lookup_satisfied [[range_input_at 4]] range_table = true ∧
    lookup_satisfied [[range_input_at 0]] range_table = false ∧
    lookup_satisfied [[range_input_at 42]] range_table = false := by
  refine ⟨?_, ?_, ?_⟩ <;> decide

/-- The single polynomial of the gate registered by `AddChip::configure` in
`examples/add.rs`: `s_add * (a + b - c)`, with `a`, `b`, `c` the advice
columns 0, 1, 2 and `s_add` the selector. -/
def add_gate_poly : Expression Fp :=
  Expression.Product (Expression.Selector 0)
    (Expression.Sum
      (Expression.Sum (Expression.Advice 0 0) (Expression.Advice 1 0))
      (Expression.Negated (Expression.Advice 2 0)))

/-- Advice-column environment of the addition row: column 0 holds `a`,
column 1 holds `b`, column 2 holds `c`. -/
def add_row (a b c : Fp) : Nat → Int → Fp := fun col _ =>
  match col with
  | 0 => a
  | 1 => b
  | _ => c

lemma add_gate_eval (a b c : Fp) :
    add_gate_poly.eval (fun _ _ => 0) (add_row a b c) (fun _ _ => 0)
      (fun _ => 1) = 1 * (a + b + -c) := rfl

/-- C8: the gate `s_add * (a + b - c)` with the selector enabled is
satisfied at the row `a = 3, b = 4, c = 7`, and is violated there whenever
`c` holds any value other than 7. -/
theorem C8_add_gate_scenario :
    gate_satisfied [add_gate_poly] (fun _ _ => 0) (add_row 3 4 7)
      (fun _ _ => 0) (fun _ => 1) = true ∧
    ∀ c : Fp, c ≠ 7 →
      gate_satisfied [add_gate_poly] (fun _ _ => 0) (add_row 3 4 c)
        (fun _ _ => 0) (fun _ => 1) = false := by
  constructor
  · decide
  · intro c hc
    simp only [gate_satisfied, List.all_cons, List.all_nil, Bool.and_true,
      add_gate_eval, decide_eq_false_iff_not]
    intro hzero
    exact hc (by linear_combination -hzero)

/-- Witness for C8 at `c = 8`, the concrete violating value of the spec's
scenario. -/
theorem C8_add_gate_scenario_witness :
    gate_satisfied [add_gate_poly] (fun _ _ => 0) (add_row 3 4 8)
      (fun _ _ => 0) (fun _ => 1) = false :=
  C8_add_gate_scenario.2 8 (by decide)

end Halo2
